import Mathlib

/-!
# Simple-Service: the request handlers of `internal/service/service.go`

The development embeds the two HTTP handlers `CreateTask` and `GetTaskByID`
as pure functions.  A handler receives its collaborators explicitly:

* the JSON decoder and the request validator (record `Env`);
* the repository (record `repo.Repository`, a pair of state transformers
  over an arbitrary storage state `σ`);
* the current storage state.

It returns the HTTP response it wrote, the entries it sent to the logger and
the storage state after the call.  Which repository methods a handler invoked
is observed from outside, by running it against an instrumented repository
(`repo.Repository.traced`).
-/

namespace SimpleService

/-! ## `strconv.Atoi` (Go standard library) -/

namespace strconv

/-- Width of Go's `int` in bits (`strconv.IntSize` on a 64-bit platform). -/
def intSize : Nat := 64

/-- The two failure causes of the number parsers (`strconv.ErrSyntax`,
`strconv.ErrRange`). -/
inductive NumErr where
  | ErrSyntax
  | ErrRange
  deriving DecidableEq, Repr

/-- Go's `*strconv.NumError`: the failing function, the input and the cause. -/
structure NumError where
  Func : String
  Num : String
  Err : NumErr
  deriving DecidableEq, Repr

/-- Value of a decimal digit character; `none` for every other character
(Go: `d = c - '0'`, rejected when `d >= base`). -/
def digitVal (c : Char) : Option Nat :=
  if 48 ≤ c.toNat ∧ c.toNat ≤ 57 then some (c.toNat - 48) else none

/-- The digit loop of `strconv.ParseUint(s, 10, 64)`: the first character that
is not a decimal digit is a syntax error, the first step whose value leaves
`uint64` is a range error. -/
def parseLoop : List Char → Nat → Except NumErr Nat
  | [], n => .ok n
  | c :: cs, n =>
    match digitVal c with
    | none => .error .ErrSyntax
    | some d =>
      if 2 ^ 64 ≤ n * 10 + d then .error .ErrRange
      else parseLoop cs (n * 10 + d)

/-- Model of `strconv.ParseUint(s, 10, 64)`: the empty string is a syntax error. -/
def ParseUint (cs : List Char) : Except NumErr Nat :=
  match cs with
  | [] => .error .ErrSyntax
  | _ :: _ => parseLoop cs 0

/-- Model of `strconv.Atoi`: an optional sign, then one or more decimal digits,
with a value inside the range of `int`.  Go's fast path for short inputs
computes the same result as `ParseInt(s, 10, 0)`, which is what is followed
here; a Go string is a byte sequence, and no byte of a multi-byte character is
a sign or a digit, so reading characters gives the same verdict. -/
def Atoi (s : String) : Except NumError Int :=
  match s.toList with
  | [] => .error ⟨"Atoi", s, .ErrSyntax⟩
  | c :: cs =>
    let neg : Bool := c = '-'
    let ds := if c = '+' ∨ c = '-' then cs else c :: cs
    match ParseUint ds with
    | .error e => .error ⟨"Atoi", s, e⟩
    | .ok un =>
      if !neg && 2 ^ (intSize - 1) ≤ un then .error ⟨"Atoi", s, .ErrRange⟩
      else if neg && 2 ^ (intSize - 1) < un then .error ⟨"Atoi", s, .ErrRange⟩
      else .ok (if neg then -(un : Int) else (un : Int))

/-- The character of a decimal digit. -/
def digitChar (d : Nat) : Char := Char.ofNat (48 + d)

/-- Decimal digits of `u`, most significant first, in front of `acc`
(the loop of `strconv.formatBits` at base 10, one digit per step). -/
def formatBits : Nat → Nat → List Char → List Char
  | 0, _, acc => acc
  | fuel + 1, u, acc =>
    if u < 10 then digitChar u :: acc
    else formatBits fuel (u / 10) (digitChar (u % 10) :: acc)

/-- Model of `strconv.Itoa`: the decimal rendering of an integer, with a
leading minus sign for a negative one. -/
def Itoa (i : Int) : String :=
  if i < 0 then String.mk ('-' :: formatBits (i.natAbs + 1) i.natAbs [])
  else String.mk (formatBits (i.natAbs + 1) i.natAbs [])

end strconv

/-! ## The repository collaborator (`internal/repo`) -/

namespace repo

/-- The record `repo.Task`.  The handlers use its fields `Title` and
`Description`; the identifier is the `id` of the spec's data model (§3, §6). -/
structure Task where
  ID : Int
  Title : String
  Description : String
  deriving DecidableEq, Repr

/-- The interface `repo.Repository` over a storage state `σ`.  A Go method
returns its value and its error side by side, and so does the model: the error
is `none` for `nil` and otherwise carries the text of `Error()`. -/
structure Repository (σ : Type) where
  CreateTask : σ → Task → (Int × Option String) × σ
  GetTaskByID : σ → Int → (Option Task × Option String) × σ

/-- One invocation of a repository method, with its argument. -/
inductive Call where
  | CreateTask (task : Task)
  | GetTaskByID (id : Int)
  deriving DecidableEq, Repr

/-- The same repository, instrumented: the state carries the list of the
invocations made so far, oldest first. -/
def Repository.traced {σ : Type} (r : Repository σ) : Repository (σ × List Call) where
  CreateTask := fun st task =>
    ((r.CreateTask st.1 task).1, ((r.CreateTask st.1 task).2, st.2 ++ [Call.CreateTask task]))
  GetTaskByID := fun st id =>
    ((r.GetTaskByID st.1 id).1, ((r.GetTaskByID st.1 id).2, st.2 ++ [Call.GetTaskByID id]))

end repo

/-! ## The response envelope (`internal/dto`) -/

namespace dto

/-- Modelled from the spec: the package `internal/dto` is not among the
sources.  §7 names the error kinds `BadFormat`, `Incorrect` and `Internal`;
the handlers refer to the first two as `dto.FieldBadFormat` and
`dto.FieldIncorrect`. -/
inductive Field where
  | BadFormat
  | Incorrect
  | Internal
  deriving DecidableEq, Repr

/-- The constant `dto.FieldBadFormat`, the kind `BadFormat`. -/
abbrev FieldBadFormat : Field := Field.BadFormat

/-- The constant `dto.FieldIncorrect`, the kind `Incorrect`. -/
abbrev FieldIncorrect : Field := Field.Incorrect

/-- Modelled from the spec: the error descriptor of the envelope, §3
"an error descriptor (`field`, `message`) on failure". -/
structure Error where
  field : Field
  message : String
  deriving DecidableEq, Repr

/-- The payloads the handlers put in `Data`: nothing, the map
`map[string]int` of `CreateTask`, or the task of `GetTaskByID`. -/
inductive Data where
  | none
  | intMap (entries : List (String × Int))
  | task (t : repo.Task)
  deriving DecidableEq, Repr

/-- Modelled from the spec: the struct `dto.Response`, §3 "`status`
("success"/"error" tag), `data` on success, or an error descriptor on
failure".  The handlers set `Status` and `Data`. -/
structure Response where
  Status : String
  Data : Data
  Error : Option Error
  deriving DecidableEq, Repr

/-- What a handler writes to the client: the HTTP status code and the
envelope serialised as the body. -/
structure HttpResponse where
  code : Nat
  body : Response
  deriving DecidableEq, Repr

/-- Modelled from the spec: `dto.BadResponseError` is not among the sources.
§7 "All client-facing errors return HTTP 400", with the envelope tagged
"error" and carrying the descriptor (`field`, `message`). -/
def BadResponseError (field : Field) (message : String) : HttpResponse :=
  { code := 400, body := { Status := "error", Data := Data.none, Error := some ⟨field, message⟩ } }

/-- Modelled from the spec: `dto.InternalServerError` is not among the sources.
§7 "`Internal`, which returns HTTP 500 with no internal detail leaked".  The
fixed client-facing text is a constant of the missing package and is taken as
the argument `text`. -/
def InternalServerError (text : String) : HttpResponse :=
  { code := 500, body := { Status := "error", Data := Data.none, Error := some ⟨Field.Internal, text⟩ } }

end dto

/-! ## The handlers (`internal/service/service.go`) -/

namespace service

/-- The request struct `TaskRequest` decoded from the body of `CreateTask`. -/
structure TaskRequest where
  Title : String
  Description : String
  deriving DecidableEq, Repr

/-- The error value handed to the logger with `zap.Error`. -/
inductive LoggedError where
  | text (msg : String)
  | num (e : strconv.NumError)
  deriving DecidableEq, Repr

/-- One call of `s.log.Error`: the message and the error attached to it. -/
structure LogEntry where
  msg : String
  err : LoggedError
  deriving DecidableEq, Repr

/-- The stateless collaborators of the handlers.

* `Unmarshal` is `json.Unmarshal(ctx.Body(), &req)` of the Go standard library:
  the decoded request, or the text of the decoding error.
* `Validate` is `validator.Validate(ctx.Context(), req)`: `none` for `nil`,
  otherwise the text of `vErr.Error()`.
* `InternalText` is the fixed text `dto.InternalServerError` puts in the 500
  response. -/
structure Env where
  Unmarshal : String → Except String TaskRequest
  Validate : TaskRequest → Option String
  InternalText : String

/-- What one run of a handler produced: the response written to the client,
the entries logged, and the storage state afterwards. -/
structure Outcome (σ : Type) where
  response : dto.HttpResponse
  logs : List LogEntry
  state : σ

/-- The status code `fiber.StatusOK`. -/
def StatusOK : Nat := 200

/-- The handler `(*service).CreateTask`, lines 36-68. -/
def CreateTask {σ : Type} (env : Env) (r : repo.Repository σ) (st : σ) (body : String) :
    Outcome σ :=
  match env.Unmarshal body with
  | .error err =>
    { response := dto.BadResponseError dto.FieldBadFormat "Invalid request body",
      logs := [⟨"Invalid request body", LoggedError.text err⟩],
      state := st }
  | .ok req =>
    match env.Validate req with
    | some vErr =>
      { response := dto.BadResponseError dto.FieldIncorrect vErr, logs := [], state := st }
    | none =>
      let task : repo.Task := { ID := 0, Title := req.Title, Description := req.Description }
      match r.CreateTask st task with
      | ((_, some err), st1) =>
        { response := dto.InternalServerError env.InternalText,
          logs := [⟨"Failed to insert task", LoggedError.text err⟩],
          state := st1 }
      | ((taskID, none), st1) =>
        let response : dto.Response :=
          { Status := "success", Data := dto.Data.intMap [("task_id", taskID)], Error := none }
        { response := { code := StatusOK, body := response }, logs := [], state := st1 }

/-- The handler `(*service).GetTaskByID`, lines 71-99; `id` is the path
parameter `ctx.Params("id")`. -/
def GetTaskByID {σ : Type} (env : Env) (r : repo.Repository σ) (st : σ) (id : String) :
    Outcome σ :=
  match strconv.Atoi id with
  | .error err =>
    { response := dto.BadResponseError dto.FieldIncorrect "Invalid task ID",
      logs := [⟨"Invalid task ID", LoggedError.num err⟩],
      state := st }
  | .ok taskID =>
    match r.GetTaskByID st taskID with
    | ((_, some err), st1) =>
      { response := dto.InternalServerError env.InternalText,
        logs := [⟨"Failed to get task by ID", LoggedError.text err⟩],
        state := st1 }
    | ((none, none), st1) =>
      { response := dto.BadResponseError dto.FieldIncorrect "Task not found",
        logs := [],
        state := st1 }
    | ((some task, none), st1) =>
      let response : dto.Response :=
        { Status := "success", Data := dto.Data.task task, Error := none }
      { response := { code := StatusOK, body := response }, logs := [], state := st1 }

end service

/-! ## The validator (`pkg/validator`) -/

namespace validator

/-- Modelled from the spec: the package `pkg/validator` is not among the
sources.  §2 "checks a decoded request payload against field constraints
(e.g., required, non-empty title)", §4.1 "fails with `Incorrect` (carrying the
offending field/reason) if validation fails".  The wording of the report for a
missing title belongs to the missing package and is the argument
`titleRequired`. -/
def Validate (titleRequired : String) (req : service.TaskRequest) : Option String :=
  if req.Title = "" then some titleRequired else none

end validator

/-! ## An in-memory repository -/

namespace repo

/-- An in-memory repository: the state lists the stored (title, description)
pairs in order of creation, and the task stored at position `k` (counting from
zero) has the identifier `k + 1`.  `CreateTask` appends the task and returns
its fresh identifier; `GetTaskByID` returns the task stored under the
identifier, or `nil` when there is none.  Neither method fails. -/
def MemRepo : Repository (List (String × String)) where
  CreateTask := fun st task =>
    (((st.length : Int) + 1, none), st ++ [(task.Title, task.Description)])
  GetTaskByID := fun st id =>
    if 1 ≤ id then
      (((st.get? (id - 1).toNat).map (fun p => { ID := id, Title := p.1, Description := p.2 }),
        none), st)
    else ((none, none), st)

/-- A test double: a stateless repository that answers every `CreateTask`
with `created` and every `GetTaskByID` with `found`. -/
def stub (created : Int × Option String) (found : Option Task × Option String) :
    Repository Unit where
  CreateTask := fun st _ => (created, st)
  GetTaskByID := fun st _ => (found, st)

end repo

/-! ## Concrete collaborators for the worked examples -/

namespace service

/-- The body of the scenario of §8: the JSON object with the title "Buy milk"
and the description "2%". -/
def buyMilkBody : String := "\x7b\"title\":\"Buy milk\",\"description\":\"2%\"\x7d"

/-- A body without the field `title`: the JSON object with the description
"2%" only. -/
def noTitleBody : String := "\x7b\"description\":\"2%\"\x7d"

/-- A truncated body: it stops after the key `title` and its colon. -/
def truncatedBody : String := "\x7b\"title\":"

/-- A decoder table for the three bodies above, with the results
`json.Unmarshal` gives on them: the two objects decode (an absent field keeps
the zero value `""`), the truncated one is an error.  Bodies outside the table
are not used by any statement and are reported with the same error. -/
def sampleUnmarshal (body : String) : Except String TaskRequest :=
  if body = buyMilkBody then .ok { Title := "Buy milk", Description := "2%" }
  else if body = noTitleBody then .ok { Title := "", Description := "2%" }
  else .error "unexpected end of JSON input"

/-- The collaborators of the worked examples: the decoder table, the validator
of `pkg/validator` and a text for the 500 response. -/
def sampleEnv : Env where
  Unmarshal := sampleUnmarshal
  Validate := validator.Validate "title is a required field"
  InternalText := "internal server error"

end service

/-! ## Branch equations of the handlers -/

namespace service

open repo dto

theorem traced_CreateTask {σ : Type} (r : Repository σ) (st : σ) (calls : List Call)
    (task : Task) :
    r.traced.CreateTask (st, calls) task
      = ((r.CreateTask st task).1, ((r.CreateTask st task).2, calls ++ [Call.CreateTask task])) :=
  rfl

theorem traced_GetTaskByID {σ : Type} (r : Repository σ) (st : σ) (calls : List Call)
    (id : Int) :
    r.traced.GetTaskByID (st, calls) id
      = ((r.GetTaskByID st id).1, ((r.GetTaskByID st id).2, calls ++ [Call.GetTaskByID id])) :=
  rfl

theorem CreateTask_decode_error {σ : Type} (env : Env) (r : Repository σ) (st : σ)
    (body err : String) (hdec : env.Unmarshal body = .error err) :
    CreateTask env r st body
      = { response := BadResponseError Field.BadFormat "Invalid request body",
          logs := [⟨"Invalid request body", LoggedError.text err⟩],
          state := st } := by
  simp [CreateTask, hdec]

theorem CreateTask_invalid {σ : Type} (env : Env) (r : Repository σ) (st : σ)
    (body : String) (req : TaskRequest) (vErr : String)
    (hdec : env.Unmarshal body = .ok req) (hval : env.Validate req = some vErr) :
    CreateTask env r st body
      = { response := BadResponseError Field.Incorrect vErr, logs := [], state := st } := by
  simp [CreateTask, hdec, hval]

theorem CreateTask_repo_error {σ : Type} (env : Env) (r : Repository σ) (st st1 : σ)
    (body : String) (req : TaskRequest) (id : Int) (err : String)
    (hdec : env.Unmarshal body = .ok req) (hval : env.Validate req = none)
    (hrepo : r.CreateTask st { ID := 0, Title := req.Title, Description := req.Description }
      = ((id, some err), st1)) :
    CreateTask env r st body
      = { response := InternalServerError env.InternalText,
          logs := [⟨"Failed to insert task", LoggedError.text err⟩],
          state := st1 } := by
  simp [CreateTask, hdec, hval, hrepo]

theorem CreateTask_repo_ok {σ : Type} (env : Env) (r : Repository σ) (st st1 : σ)
    (body : String) (req : TaskRequest) (id : Int)
    (hdec : env.Unmarshal body = .ok req) (hval : env.Validate req = none)
    (hrepo : r.CreateTask st { ID := 0, Title := req.Title, Description := req.Description }
      = ((id, none), st1)) :
    CreateTask env r st body
      = { response :=
            { code := 200,
              body := { Status := "success", Data := Data.intMap [("task_id", id)],
                        Error := none } },
          logs := [],
          state := st1 } := by
  simp [CreateTask, hdec, hval, hrepo, StatusOK]

theorem GetTaskByID_parse_error {σ : Type} (env : Env) (r : Repository σ) (st : σ)
    (id : String) (err : strconv.NumError) (hid : strconv.Atoi id = .error err) :
    GetTaskByID env r st id
      = { response := BadResponseError Field.Incorrect "Invalid task ID",
          logs := [⟨"Invalid task ID", LoggedError.num err⟩],
          state := st } := by
  simp [GetTaskByID, hid]

theorem GetTaskByID_repo_error {σ : Type} (env : Env) (r : Repository σ) (st st1 : σ)
    (id : String) (n : Int) (found : Option Task) (err : String)
    (hid : strconv.Atoi id = .ok n)
    (hrepo : r.GetTaskByID st n = ((found, some err), st1)) :
    GetTaskByID env r st id
      = { response := InternalServerError env.InternalText,
          logs := [⟨"Failed to get task by ID", LoggedError.text err⟩],
          state := st1 } := by
  simp [GetTaskByID, hid, hrepo]

theorem GetTaskByID_repo_nil {σ : Type} (env : Env) (r : Repository σ) (st st1 : σ)
    (id : String) (n : Int) (hid : strconv.Atoi id = .ok n)
    (hrepo : r.GetTaskByID st n = ((none, none), st1)) :
    GetTaskByID env r st id
      = { response := BadResponseError Field.Incorrect "Task not found",
          logs := [],
          state := st1 } := by
  simp [GetTaskByID, hid, hrepo]

theorem GetTaskByID_repo_ok {σ : Type} (env : Env) (r : Repository σ) (st st1 : σ)
    (id : String) (n : Int) (task : Task) (hid : strconv.Atoi id = .ok n)
    (hrepo : r.GetTaskByID st n = ((some task, none), st1)) :
    GetTaskByID env r st id
      = { response :=
            { code := 200,
              body := { Status := "success", Data := Data.task task, Error := none } },
          logs := [],
          state := st1 } := by
  simp [GetTaskByID, hid, hrepo, StatusOK]

/-- After the identifier has parsed, the storage state a run of `GetTaskByID`
leaves is the one the repository's lookup left, whatever the lookup found. -/
theorem GetTaskByID_state {σ : Type} (env : Env) (r : Repository σ) (st : σ)
    (id : String) (n : Int) (hid : strconv.Atoi id = .ok n) :
    (GetTaskByID env r st id).state = (r.GetTaskByID st n).2 := by
  rcases hres : r.GetTaskByID st n with ⟨⟨found, err⟩, st1⟩
  cases err with
  | some e => rw [GetTaskByID_repo_error env r st st1 id n found e hid hres]
  | none =>
    cases found with
    | none => rw [GetTaskByID_repo_nil env r st st1 id n hid hres]
    | some t => rw [GetTaskByID_repo_ok env r st st1 id n t hid hres]

/-! ## `CreateTask` -/

/-- C1. `CreateTask`, success path: when the body decodes to a request that
passes validation and the repository's `CreateTask` answers `(id, nil)`, the
handler answers HTTP 200 with the envelope `status = "success"`,
`data = map("task_id" ↦ id)` for exactly that `id`, and it calls the repository
exactly once, with the task carrying the request's title and description. -/
theorem CreateTask_success {σ : Type} (env : Env) (r : Repository σ) (st st1 : σ)
    (calls : List Call) (body : String) (req : TaskRequest) (id : Int)
    (hdec : env.Unmarshal body = .ok req) (hval : env.Validate req = none)
    (hrepo : r.CreateTask st { ID := 0, Title := req.Title, Description := req.Description }
      = ((id, none), st1)) :
    (CreateTask env r st body).response
        = { code := 200,
            body := { Status := "success", Data := Data.intMap [("task_id", id)],
                      Error := none } }
      ∧ (CreateTask env r st body).state = st1
      ∧ (CreateTask env r.traced (st, calls) body).state
        = (st1, calls ++ [Call.CreateTask
            { ID := 0, Title := req.Title, Description := req.Description }])
      ∧ (CreateTask env r.traced (st, calls) body).response
        = (CreateTask env r st body).response := by
  have h1 := CreateTask_repo_ok env r st st1 body req id hdec hval hrepo
  have h2 := CreateTask_repo_ok env r.traced (st, calls)
    (st1, calls ++ [Call.CreateTask
      { ID := 0, Title := req.Title, Description := req.Description }])
    body req id hdec hval (by rw [traced_CreateTask, hrepo])
  rw [h1, h2]
  exact ⟨rfl, rfl, rfl, rfl⟩

/-- Witness of C1: the body of the §8 scenario against the empty in-memory
repository is stored under the identifier 1. -/
theorem CreateTask_success_witness :
    sampleEnv.Unmarshal buyMilkBody = .ok { Title := "Buy milk", Description := "2%" }
      ∧ sampleEnv.Validate { Title := "Buy milk", Description := "2%" } = none
      ∧ MemRepo.CreateTask [] { ID := 0, Title := "Buy milk", Description := "2%" }
        = ((1, none), [("Buy milk", "2%")])
      ∧ (CreateTask sampleEnv MemRepo [] buyMilkBody).response
        = { code := 200,
            body := { Status := "success", Data := Data.intMap [("task_id", 1)],
                      Error := none } }
      ∧ (CreateTask sampleEnv MemRepo.traced ([], []) buyMilkBody).state
        = ([("Buy milk", "2%")],
           [Call.CreateTask { ID := 0, Title := "Buy milk", Description := "2%" }]) :=
  have h := CreateTask_success sampleEnv MemRepo [] [("Buy milk", "2%")] [] buyMilkBody
    { Title := "Buy milk", Description := "2%" } 1 rfl (by decide) (by decide)
  ⟨rfl, by decide, by decide, h.1, h.2.2.1⟩

/-- C2. `CreateTask`, malformed body: when the body fails to decode, the
handler answers the 400 response of kind `BadFormat` with the message
"Invalid request body"; the repository is not called and its state is left as
it was, and the whole outcome is the same whatever the validator would say and
whatever the repository would do. -/
theorem CreateTask_malformed_body {σ : Type} (env : Env) (r : Repository σ) (st : σ)
    (calls : List Call) (body err : String) (hdec : env.Unmarshal body = .error err) :
    (CreateTask env r st body).response
        = { code := 400,
            body := { Status := "error", Data := Data.none,
                      Error := some ⟨Field.BadFormat, "Invalid request body"⟩ } }
      ∧ (CreateTask env r st body).response
        = BadResponseError Field.BadFormat "Invalid request body"
      ∧ (CreateTask env r.traced (st, calls) body).state = (st, calls)
      ∧ (∀ (validate : TaskRequest → Option String) (r2 : Repository σ),
          CreateTask { env with Validate := validate } r2 st body = CreateTask env r st body) := by
  refine ⟨?_, ?_, ?_, ?_⟩
  · rw [CreateTask_decode_error env r st body err hdec]; rfl
  · rw [CreateTask_decode_error env r st body err hdec]
  · rw [CreateTask_decode_error env r.traced (st, calls) body err hdec]
  · intro validate r2
    rw [CreateTask_decode_error env r st body err hdec,
      CreateTask_decode_error { env with Validate := validate } r2 st body err hdec]

/-- Witness of C2: the truncated body against the empty in-memory repository. -/
theorem CreateTask_malformed_body_witness :
    sampleEnv.Unmarshal truncatedBody = .error "unexpected end of JSON input"
      ∧ (CreateTask sampleEnv MemRepo [] truncatedBody).response
        = { code := 400,
            body := { Status := "error", Data := Data.none,
                      Error := some ⟨Field.BadFormat, "Invalid request body"⟩ } }
      ∧ (CreateTask sampleEnv MemRepo.traced ([], []) truncatedBody).state = ([], []) :=
  have h := CreateTask_malformed_body sampleEnv MemRepo [] [] truncatedBody
    "unexpected end of JSON input" rfl
  ⟨rfl, h.1, h.2.2.1⟩

/-- C3. `CreateTask`, invalid fields: when the body decodes and validation
fails with the text `vErr`, the handler answers the 400 response of kind
`Incorrect` whose message is exactly `vErr`, the repository is not called and
the stored state is unchanged.  In particular, with the validator of
`pkg/validator`, this is the answer to every request whose title is missing. -/
theorem CreateTask_invalid_fields {σ : Type} (env : Env) (r : Repository σ) (st : σ)
    (calls : List Call) (body : String) (req : TaskRequest)
    (hdec : env.Unmarshal body = .ok req) :
    (∀ vErr : String, env.Validate req = some vErr →
        (CreateTask env r st body).response
            = { code := 400,
                body := { Status := "error", Data := Data.none,
                          Error := some ⟨Field.Incorrect, vErr⟩ } }
          ∧ (CreateTask env r st body).response = BadResponseError Field.Incorrect vErr
          ∧ (CreateTask env r st body).state = st
          ∧ (CreateTask env r.traced (st, calls) body).state = (st, calls))
      ∧ (∀ titleRequired : String, env.Validate = validator.Validate titleRequired →
          req.Title = "" →
          (CreateTask env r st body).response
              = { code := 400,
                  body := { Status := "error", Data := Data.none,
                            Error := some ⟨Field.Incorrect, titleRequired⟩ } }
            ∧ (CreateTask env r st body).state = st
            ∧ (CreateTask env r.traced (st, calls) body).state = (st, calls)) := by
  have key : ∀ vErr : String, env.Validate req = some vErr →
      (CreateTask env r st body).response = BadResponseError Field.Incorrect vErr
        ∧ (CreateTask env r st body).state = st
        ∧ (CreateTask env r.traced (st, calls) body).state = (st, calls) := by
    intro vErr hval
    rw [CreateTask_invalid env r st body req vErr hdec hval,
      CreateTask_invalid env r.traced (st, calls) body req vErr hdec hval]
    exact ⟨rfl, rfl, rfl⟩
  refine ⟨fun vErr hval => ?_, fun titleRequired hV htitle => ?_⟩
  · obtain ⟨h1, h2, h3⟩ := key vErr hval
    exact ⟨by rw [h1]; rfl, h1, h2, h3⟩
  · have hval : env.Validate req = some titleRequired := by
      rw [hV]; simp [validator.Validate, htitle]
    obtain ⟨h1, h2, h3⟩ := key titleRequired hval
    exact ⟨by rw [h1]; rfl, h2, h3⟩

/-- Witness of C3: the body without a title against the empty in-memory
repository. -/
theorem CreateTask_invalid_fields_witness :
    sampleEnv.Unmarshal noTitleBody = .ok { Title := "", Description := "2%" }
      ∧ sampleEnv.Validate { Title := "", Description := "2%" }
        = some "title is a required field"
      ∧ (CreateTask sampleEnv MemRepo [] noTitleBody).response
        = { code := 400,
            body := { Status := "error", Data := Data.none,
                      Error := some ⟨Field.Incorrect, "title is a required field"⟩ } }
      ∧ (CreateTask sampleEnv MemRepo.traced ([], []) noTitleBody).state = ([], []) :=
  have h := CreateTask_invalid_fields sampleEnv MemRepo [] [] noTitleBody
    { Title := "", Description := "2%" } rfl
  have h1 := h.1 "title is a required field" (by decide)
  have h2 := h.2 "title is a required field" rfl rfl
  ⟨rfl, by decide, h2.1, h1.2.2.2⟩

/-! ## `GetTaskByID` -/

/-- C4. `GetTaskByID`, malformed id: for every path parameter on which
`strconv.Atoi` fails, the handler answers the 400 response of kind `Incorrect`
with the message "Invalid task ID", and the repository is not called.
`strconv.Atoi` fails on "abc", on the empty string and on the numeral
9223372036854775808, which is outside the range of `int`. -/
theorem GetTaskByID_malformed_id :
    (∀ {σ : Type} (env : Env) (r : Repository σ) (st : σ) (calls : List Call) (id : String)
        (err : strconv.NumError), strconv.Atoi id = .error err →
          (GetTaskByID env r st id).response
              = { code := 400,
                  body := { Status := "error", Data := Data.none,
                            Error := some ⟨Field.Incorrect, "Invalid task ID"⟩ } }
            ∧ (GetTaskByID env r st id).response
              = BadResponseError Field.Incorrect "Invalid task ID"
            ∧ (GetTaskByID env r st id).state = st
            ∧ (GetTaskByID env r.traced (st, calls) id).state = (st, calls))
      ∧ strconv.Atoi "abc" = .error ⟨"Atoi", "abc", strconv.NumErr.ErrSyntax⟩
      ∧ strconv.Atoi "" = .error ⟨"Atoi", "", strconv.NumErr.ErrSyntax⟩
      ∧ strconv.Atoi "9223372036854775808"
        = .error ⟨"Atoi", "9223372036854775808", strconv.NumErr.ErrRange⟩ := by
  refine ⟨?_, rfl, rfl, rfl⟩
  intro σ env r st calls id err hid
  rw [GetTaskByID_parse_error env r st id err hid,
    GetTaskByID_parse_error env r.traced (st, calls) id err hid]
  exact ⟨rfl, rfl, rfl, rfl⟩

/-- Witness of C4: the path parameter "abc" against an in-memory repository
holding one task. -/
theorem GetTaskByID_malformed_id_witness :
    strconv.Atoi "abc" = .error ⟨"Atoi", "abc", strconv.NumErr.ErrSyntax⟩
      ∧ (GetTaskByID sampleEnv MemRepo [("Buy milk", "2%")] "abc").response
        = { code := 400,
            body := { Status := "error", Data := Data.none,
                      Error := some ⟨Field.Incorrect, "Invalid task ID"⟩ } }
      ∧ (GetTaskByID sampleEnv MemRepo.traced ([("Buy milk", "2%")], []) "abc").state
        = ([("Buy milk", "2%")], []) :=
  have h := GetTaskByID_malformed_id.1 sampleEnv MemRepo [("Buy milk", "2%")] [] "abc"
    ⟨"Atoi", "abc", strconv.NumErr.ErrSyntax⟩ rfl
  ⟨rfl, h.1, h.2.2.2⟩

/-- C5. `GetTaskByID`, not found: when the path parameter parses to an integer
and the repository's `GetTaskByID` answers `(nil, nil)`, the handler answers
the 400 response of kind `Incorrect` with the message "Task not found", which
is not the 500 response. -/
theorem GetTaskByID_not_found {σ : Type} (env : Env) (r : Repository σ) (st st1 : σ)
    (id : String) (n : Int) (hid : strconv.Atoi id = .ok n)
    (hrepo : r.GetTaskByID st n = ((none, none), st1)) :
    (GetTaskByID env r st id).response
        = { code := 400,
            body := { Status := "error", Data := Data.none,
                      Error := some ⟨Field.Incorrect, "Task not found"⟩ } }
      ∧ (GetTaskByID env r st id).response = BadResponseError Field.Incorrect "Task not found"
      ∧ (GetTaskByID env r st id).response ≠ InternalServerError env.InternalText
      ∧ (GetTaskByID env r st id).response.code ≠ 500 := by
  rw [GetTaskByID_repo_nil env r st st1 id n hid hrepo]
  refine ⟨rfl, rfl, ?_, ?_⟩
  · intro h
    have hc := congrArg HttpResponse.code h
    simp [BadResponseError, InternalServerError] at hc
  · simp [BadResponseError]

/-- Witness of C5: the identifier 999 of the §8 scenario against an in-memory
repository holding one task. -/
theorem GetTaskByID_not_found_witness :
    strconv.Atoi "999" = .ok 999
      ∧ MemRepo.GetTaskByID [("Buy milk", "2%")] 999 = ((none, none), [("Buy milk", "2%")])
      ∧ (GetTaskByID sampleEnv MemRepo [("Buy milk", "2%")] "999").response
        = { code := 400,
            body := { Status := "error", Data := Data.none,
                      Error := some ⟨Field.Incorrect, "Task not found"⟩ } } :=
  have h := GetTaskByID_not_found sampleEnv MemRepo [("Buy milk", "2%")] [("Buy milk", "2%")]
    "999" 999 rfl (by decide)
  ⟨rfl, by decide, h.1⟩

/-- C6. `GetTaskByID`, success path: when the path parameter parses to the
integer `n`, the repository's `GetTaskByID` is called exactly once, with `n`;
and when it answers `(t, nil)` with a task `t`, the handler answers HTTP 200
with the envelope `status = "success"`, `data = t`, the repository's task
unchanged. -/
theorem GetTaskByID_success {σ : Type} (env : Env) (r : Repository σ) (st : σ)
    (calls : List Call) (id : String) (n : Int) (hid : strconv.Atoi id = .ok n) :
    (GetTaskByID env r.traced (st, calls) id).state
        = ((r.GetTaskByID st n).2, calls ++ [Call.GetTaskByID n])
      ∧ (∀ (t : Task) (st1 : σ), r.GetTaskByID st n = ((some t, none), st1) →
          (GetTaskByID env r st id).response
              = { code := 200,
                  body := { Status := "success", Data := Data.task t, Error := none } }
            ∧ (GetTaskByID env r.traced (st, calls) id).response
              = (GetTaskByID env r st id).response
            ∧ (GetTaskByID env r st id).state = st1) := by
  refine ⟨?_, ?_⟩
  · rw [GetTaskByID_state env r.traced (st, calls) id n hid, traced_GetTaskByID]
  · intro t st1 hrepo
    rw [GetTaskByID_repo_ok env r st st1 id n t hid hrepo,
      GetTaskByID_repo_ok env r.traced (st, calls) (st1, calls ++ [Call.GetTaskByID n]) id n t
        hid (by rw [traced_GetTaskByID, hrepo])]
    exact ⟨rfl, rfl, rfl⟩

/-- Witness of C6: the identifier 1 against an in-memory repository holding the
task of the §8 scenario. -/
theorem GetTaskByID_success_witness :
    strconv.Atoi "1" = .ok 1
      ∧ MemRepo.GetTaskByID [("Buy milk", "2%")] 1
        = ((some { ID := 1, Title := "Buy milk", Description := "2%" }, none),
           [("Buy milk", "2%")])
      ∧ (GetTaskByID sampleEnv MemRepo.traced ([("Buy milk", "2%")], []) "1").state
        = ([("Buy milk", "2%")], [Call.GetTaskByID 1])
      ∧ (GetTaskByID sampleEnv MemRepo [("Buy milk", "2%")] "1").response
        = { code := 200,
            body := { Status := "success",
                      Data := Data.task { ID := 1, Title := "Buy milk", Description := "2%" },
                      Error := none } } :=
  have h := GetTaskByID_success sampleEnv MemRepo [("Buy milk", "2%")] [] "1" 1 rfl
  ⟨rfl, by decide, h.1,
    (h.2 { ID := 1, Title := "Buy milk", Description := "2%" } [("Buy milk", "2%")]
      (by decide)).1⟩

/-! ## Repository failures -/

/-- C7. Internal failures leak nothing: in `CreateTask` and in `GetTaskByID`,
whenever the repository call returns an error the handler answers the 500
response of kind `Internal` (for `GetTaskByID` whatever task value comes with
the error), and two runs that differ in the repository, its state, the value
and the error it returns give the same response: the response does not depend
on the error. -/
theorem internal_failure_leaks_nothing (env : Env) :
    (∀ {σ : Type} (r : Repository σ) (st st1 : σ) (body : String) (req : TaskRequest)
        (id : Int) (err : String),
        env.Unmarshal body = .ok req → env.Validate req = none →
        r.CreateTask st { ID := 0, Title := req.Title, Description := req.Description }
          = ((id, some err), st1) →
        (CreateTask env r st body).response
            = { code := 500,
                body := { Status := "error", Data := Data.none,
                          Error := some ⟨Field.Internal, env.InternalText⟩ } }
          ∧ (CreateTask env r st body).response = InternalServerError env.InternalText)
      ∧ (∀ {σ : Type} (r : Repository σ) (st st1 : σ) (id : String) (n : Int)
          (found : Option Task) (err : String),
          strconv.Atoi id = .ok n → r.GetTaskByID st n = ((found, some err), st1) →
          (GetTaskByID env r st id).response
              = { code := 500,
                  body := { Status := "error", Data := Data.none,
                            Error := some ⟨Field.Internal, env.InternalText⟩ } }
            ∧ (GetTaskByID env r st id).response = InternalServerError env.InternalText)
      ∧ (∀ {σ τ : Type} (r1 : Repository σ) (r2 : Repository τ) (s1 t1 : σ) (s2 t2 : τ)
          (body : String) (req : TaskRequest) (id1 id2 : Int) (err1 err2 : String),
          env.Unmarshal body = .ok req → env.Validate req = none →
          r1.CreateTask s1 { ID := 0, Title := req.Title, Description := req.Description }
            = ((id1, some err1), t1) →
          r2.CreateTask s2 { ID := 0, Title := req.Title, Description := req.Description }
            = ((id2, some err2), t2) →
          (CreateTask env r1 s1 body).response = (CreateTask env r2 s2 body).response)
      ∧ (∀ {σ τ : Type} (r1 : Repository σ) (r2 : Repository τ) (s1 t1 : σ) (s2 t2 : τ)
          (id : String) (n : Int) (found1 found2 : Option Task) (err1 err2 : String),
          strconv.Atoi id = .ok n →
          r1.GetTaskByID s1 n = ((found1, some err1), t1) →
          r2.GetTaskByID s2 n = ((found2, some err2), t2) →
          (GetTaskByID env r1 s1 id).response = (GetTaskByID env r2 s2 id).response) := by
  refine ⟨?_, ?_, ?_, ?_⟩
  · intro σ r st st1 body req id err hdec hval hrepo
    rw [CreateTask_repo_error env r st st1 body req id err hdec hval hrepo]
    exact ⟨rfl, rfl⟩
  · intro σ r st st1 id n found err hid hrepo
    rw [GetTaskByID_repo_error env r st st1 id n found err hid hrepo]
    exact ⟨rfl, rfl⟩
  · intro σ τ r1 r2 s1 t1 s2 t2 body req id1 id2 err1 err2 hdec hval h1 h2
    rw [CreateTask_repo_error env r1 s1 t1 body req id1 err1 hdec hval h1,
      CreateTask_repo_error env r2 s2 t2 body req id2 err2 hdec hval h2]
  · intro σ τ r1 r2 s1 t1 s2 t2 id n found1 found2 err1 err2 hid h1 h2
    rw [GetTaskByID_repo_error env r1 s1 t1 id n found1 err1 hid h1,
      GetTaskByID_repo_error env r2 s2 t2 id n found2 err2 hid h2]

/-- Witness of C7: a repository whose calls all fail, once with a task next to
the error and once without. -/
theorem internal_failure_leaks_nothing_witness :
    sampleEnv.Unmarshal buyMilkBody = .ok { Title := "Buy milk", Description := "2%" }
      ∧ sampleEnv.Validate { Title := "Buy milk", Description := "2%" } = none
      ∧ strconv.Atoi "1" = .ok 1
      ∧ (CreateTask sampleEnv (stub (0, some "connection refused") (none, some "timeout")) ()
          buyMilkBody).response
        = { code := 500,
            body := { Status := "error", Data := Data.none,
                      Error := some ⟨Field.Internal, "internal server error"⟩ } }
      ∧ (GetTaskByID sampleEnv
          (stub (0, none) (some { ID := 1, Title := "Buy milk", Description := "2%" },
            some "timeout")) () "1").response
        = { code := 500,
            body := { Status := "error", Data := Data.none,
                      Error := some ⟨Field.Internal, "internal server error"⟩ } }
      ∧ (GetTaskByID sampleEnv (stub (0, none) (none, some "timeout")) () "1").response
        = (GetTaskByID sampleEnv
            (stub (0, none) (some { ID := 1, Title := "Buy milk", Description := "2%" },
              some "connection reset")) () "1").response :=
  have h := internal_failure_leaks_nothing sampleEnv
  ⟨rfl, by decide, rfl,
    (h.1 (stub (0, some "connection refused") (none, some "timeout")) () () buyMilkBody
      { Title := "Buy milk", Description := "2%" } 0 "connection refused" rfl (by decide)
      rfl).1,
    (h.2.1 (stub (0, none) (some { ID := 1, Title := "Buy milk", Description := "2%" },
        some "timeout")) () () "1" 1
      (some { ID := 1, Title := "Buy milk", Description := "2%" }) "timeout" rfl rfl).1,
    h.2.2.2 (stub (0, none) (none, some "timeout"))
      (stub (0, none) (some { ID := 1, Title := "Buy milk", Description := "2%" },
        some "connection reset")) () () () () "1" 1 none
      (some { ID := 1, Title := "Buy milk", Description := "2%" }) "timeout"
      "connection reset" rfl rfl rfl⟩

/-! ## What the handlers guarantee about identifiers and titles -/

/-- C9, as stated, fails: the request of the §8 scenario is valid (it decodes,
its title is not empty, validation passes), yet against a repository that
answers `(0, nil)` the handler answers 200 with `task_id = 0`, which is not
positive, and against a repository that answers with an error it answers 500. -/
theorem CreateTask_positive_id_counterexample :
    sampleEnv.Unmarshal buyMilkBody = .ok { Title := "Buy milk", Description := "2%" }
      ∧ sampleEnv.Validate { Title := "Buy milk", Description := "2%" } = none
      ∧ (CreateTask sampleEnv (stub (0, none) (none, none)) () buyMilkBody).response
        = { code := 200,
            body := { Status := "success", Data := Data.intMap [("task_id", 0)],
                      Error := none } }
      ∧ ¬ ((0 : Int) < 0)
      ∧ (CreateTask sampleEnv (stub (0, some "connection refused") (none, none)) ()
          buyMilkBody).response.code = 500 :=
  ⟨rfl, by decide, by decide, by decide, by decide⟩

/-- C9, amended: for every request that decodes with a non-empty title, the
validator of `pkg/validator` lets it through, and when the repository's
`CreateTask` answers `(id, nil)` with a positive `id` the handler answers 200
with a `task_id` that is a positive integer, namely `id`. -/
theorem CreateTask_positive_id {σ : Type} (env : Env) (r : Repository σ) (st st1 : σ)
    (titleRequired body : String) (req : TaskRequest) (id : Int)
    (hV : env.Validate = validator.Validate titleRequired)
    (hdec : env.Unmarshal body = .ok req) (htitle : req.Title ≠ "")
    (hrepo : r.CreateTask st { ID := 0, Title := req.Title, Description := req.Description }
      = ((id, none), st1))
    (hpos : 0 < id) :
    env.Validate req = none
      ∧ ∃ taskID : Int, 0 < taskID ∧ taskID = id
        ∧ (CreateTask env r st body).response
          = { code := 200,
              body := { Status := "success", Data := Data.intMap [("task_id", taskID)],
                        Error := none } } := by
  have hval : env.Validate req = none := by
    rw [hV]; simp [validator.Validate, htitle]
  refine ⟨hval, id, hpos, rfl, ?_⟩
  rw [CreateTask_repo_ok env r st st1 body req id hdec hval hrepo]

/-- Witness of C9 amended: the request of the §8 scenario against the empty
in-memory repository gets the identifier 1. -/
theorem CreateTask_positive_id_witness :
    sampleEnv.Unmarshal buyMilkBody = .ok { Title := "Buy milk", Description := "2%" }
      ∧ "Buy milk" ≠ ""
      ∧ MemRepo.CreateTask [] { ID := 0, Title := "Buy milk", Description := "2%" }
        = ((1, none), [("Buy milk", "2%")])
      ∧ (0 : Int) < 1
      ∧ ∃ taskID : Int, 0 < taskID ∧ taskID = 1
        ∧ (CreateTask sampleEnv MemRepo [] buyMilkBody).response
          = { code := 200,
              body := { Status := "success", Data := Data.intMap [("task_id", taskID)],
                        Error := none } } :=
  ⟨rfl, by decide, by decide, by decide,
    (CreateTask_positive_id sampleEnv MemRepo [] [("Buy milk", "2%")]
      "title is a required field" buyMilkBody { Title := "Buy milk", Description := "2%" } 1
      rfl rfl (by decide) (by decide) (by decide)).2⟩

/-- C10, as stated, fails: `strconv.Atoi` accepts "-5", and when the
repository answers the lookup of -5 with a task whose identifier is -5 and
whose title is empty, the handler returns that task in a 200 response. -/
theorem returned_task_invariant_counterexample :
    strconv.Atoi "-5" = .ok (-5)
      ∧ (GetTaskByID sampleEnv
          (stub (0, none) (some { ID := -5, Title := "", Description := "" }, none)) ()
          "-5").response
        = { code := 200,
            body := { Status := "success",
                      Data := Data.task { ID := -5, Title := "", Description := "" },
                      Error := none } }
      ∧ ¬ ((0 : Int) ≤ -5 ∧ ("" : String) ≠ "") :=
  ⟨rfl, by decide, by decide⟩

/-- C10, amended: a 200 response of `GetTaskByID` carries exactly the task the
repository returned for the parsed identifier, so it has a non-negative
identifier and a non-empty title whenever the tasks the repository returns
have; and, with the validator of `pkg/validator`, `CreateTask` calls the
repository at most once and only with a task whose title is not empty. -/
theorem returned_task_invariant :
    (∀ {σ : Type} (env : Env) (r : Repository σ) (st : σ) (id : String),
        (GetTaskByID env r st id).response.code = 200 →
        ∃ (n : Int) (t : Task), strconv.Atoi id = .ok n
          ∧ (r.GetTaskByID st n).1 = (some t, none)
          ∧ (GetTaskByID env r st id).response
            = { code := 200,
                body := { Status := "success", Data := Data.task t, Error := none } })
      ∧ (∀ {σ : Type} (env : Env) (r : Repository σ) (st : σ) (id : String) (t : Task),
          (∀ (n : Int) (u : Task), (r.GetTaskByID st n).1.1 = some u →
            0 ≤ u.ID ∧ u.Title ≠ "") →
          (GetTaskByID env r st id).response.code = 200 →
          (GetTaskByID env r st id).response.body.Data = Data.task t →
          0 ≤ t.ID ∧ t.Title ≠ "")
      ∧ (∀ {σ : Type} (env : Env) (titleRequired : String) (r : Repository σ) (st : σ)
          (calls : List Call) (body : String),
          env.Validate = validator.Validate titleRequired →
          (CreateTask env r.traced (st, calls) body).state.2 = calls
            ∨ ∃ task : Task, task.Title ≠ ""
              ∧ (CreateTask env r.traced (st, calls) body).state.2
                = calls ++ [Call.CreateTask task]) := by
  have passThrough : ∀ {σ : Type} (env : Env) (r : Repository σ) (st : σ) (id : String),
      (GetTaskByID env r st id).response.code = 200 →
      ∃ (n : Int) (t : Task), strconv.Atoi id = .ok n
        ∧ (r.GetTaskByID st n).1 = (some t, none)
        ∧ (GetTaskByID env r st id).response
          = { code := 200,
              body := { Status := "success", Data := Data.task t, Error := none } } := by
    intro σ env r st id hcode
    cases hid : strconv.Atoi id with
    | error err =>
      rw [GetTaskByID_parse_error env r st id err hid] at hcode
      simp [BadResponseError] at hcode
    | ok n =>
      rcases hres : r.GetTaskByID st n with ⟨⟨found, err⟩, st1⟩
      cases err with
      | some e =>
        rw [GetTaskByID_repo_error env r st st1 id n found e hid hres] at hcode
        simp [InternalServerError] at hcode
      | none =>
        cases found with
        | none =>
          rw [GetTaskByID_repo_nil env r st st1 id n hid hres] at hcode
          simp [BadResponseError] at hcode
        | some t =>
          refine ⟨n, t, rfl, by rw [hres], ?_⟩
          rw [GetTaskByID_repo_ok env r st st1 id n t hid hres]
  refine ⟨?_, ?_, ?_⟩
  · intro σ env r st id hcode
    obtain ⟨n, t, h1, h2, h3⟩ := passThrough env r st id hcode
    exact ⟨n, t, h1, h2, h3⟩
  · intro σ env r st id t hinv hcode hdata
    obtain ⟨n, u, _, h2, h3⟩ := passThrough env r st id hcode
    rw [h3] at hdata
    have htu : u = t := by simpa using hdata
    subst htu
    exact hinv n u (by rw [h2])
  · intro σ env titleRequired r st calls body hV
    cases hdec : env.Unmarshal body with
    | error err =>
      left
      rw [CreateTask_decode_error env r.traced (st, calls) body err hdec]
    | ok req =>
      cases hval : env.Validate req with
      | some vErr =>
        left
        rw [CreateTask_invalid env r.traced (st, calls) body req vErr hdec hval]
      | none =>
        right
        have htitle : req.Title ≠ "" := by
          intro h
          rw [hV] at hval
          simp [validator.Validate, h] at hval
        refine ⟨{ ID := 0, Title := req.Title, Description := req.Description }, htitle, ?_⟩
        rcases hres : r.CreateTask st
          { ID := 0, Title := req.Title, Description := req.Description } with ⟨⟨id, err⟩, st1⟩
        cases err with
        | some e =>
          rw [CreateTask_repo_error env r.traced (st, calls)
            (st1, calls ++ [Call.CreateTask
              { ID := 0, Title := req.Title, Description := req.Description }])
            body req id e hdec hval (by rw [traced_CreateTask, hres])]
        | none =>
          rw [CreateTask_repo_ok env r.traced (st, calls)
            (st1, calls ++ [Call.CreateTask
              { ID := 0, Title := req.Title, Description := req.Description }])
            body req id hdec hval (by rw [traced_CreateTask, hres])]

/-- Witness of C10 amended: the lookup of 1 in an in-memory repository holding
the task of the §8 scenario, and the creation of that task. -/
theorem returned_task_invariant_witness :
    (GetTaskByID sampleEnv MemRepo [("Buy milk", "2%")] "1").response.code = 200
      ∧ (∃ (n : Int) (t : Task), strconv.Atoi "1" = .ok n
          ∧ (MemRepo.GetTaskByID [("Buy milk", "2%")] n).1 = (some t, none)
          ∧ (GetTaskByID sampleEnv MemRepo [("Buy milk", "2%")] "1").response
            = { code := 200,
                body := { Status := "success", Data := Data.task t, Error := none } })
      ∧ ((CreateTask sampleEnv MemRepo.traced ([], []) buyMilkBody).state.2 = []
          ∨ ∃ task : Task, task.Title ≠ ""
            ∧ (CreateTask sampleEnv MemRepo.traced ([], []) buyMilkBody).state.2
              = [] ++ [Call.CreateTask task]) :=
  ⟨by decide,
    returned_task_invariant.1 sampleEnv MemRepo [("Buy milk", "2%")] "1" (by decide),
    returned_task_invariant.2.2 sampleEnv "title is a required field" MemRepo [] []
      buyMilkBody rfl⟩

end service

/-! ## Reading back a rendered integer -/

namespace strconv

theorem digitVal_digitChar (d : Nat) (hd : d < 10) : digitVal (digitChar d) = some d := by
  interval_cases d <;> rfl

theorem digitChar_ne_sign (d : Nat) (hd : d < 10) :
    ¬ (digitChar d = '+' ∨ digitChar d = '-') ∧ (decide (digitChar d = '-')) = false := by
  interval_cases d <;> decide

/-- Reading a concatenation: the second part continues from the value the
first part reached. -/
theorem parseLoop_append (xs ys : List Char) (n : Nat) :
    parseLoop (xs ++ ys) n
      = match parseLoop xs n with
        | .ok m => parseLoop ys m
        | .error e => .error e := by
  induction xs generalizing n with
  | nil => rfl
  | cons c cs ih =>
    simp only [List.cons_append, parseLoop]
    cases digitVal c with
    | none => rfl
    | some d =>
      dsimp only
      by_cases h : 2 ^ 64 ≤ n * 10 + d
      · rw [if_pos h, if_pos h]
      · rw [if_neg h, if_neg h]
        exact ih (n * 10 + d)

theorem formatBits_acc (fuel u : Nat) (acc : List Char) :
    formatBits fuel u acc = formatBits fuel u [] ++ acc := by
  induction fuel generalizing u acc with
  | zero => rfl
  | succ k ih =>
    simp only [formatBits]
    by_cases h : u < 10
    · simp [h]
    · simp only [h, if_false]
      rw [ih (u / 10) (digitChar (u % 10) :: acc), ih (u / 10) [digitChar (u % 10)]]
      simp

/-- With enough fuel the rendering starts with a digit. -/
theorem formatBits_head (fuel u : Nat) (acc : List Char) (hfuel : u < fuel) :
    ∃ (d : Nat) (rest : List Char), d < 10 ∧ formatBits fuel u acc = digitChar d :: rest := by
  induction fuel generalizing u acc with
  | zero => omega
  | succ k ih =>
    simp only [formatBits]
    by_cases h : u < 10
    · exact ⟨u, acc, h, by simp [h]⟩
    · simp only [h, if_false]
      exact ih (u / 10) _ (by omega)

/-- With enough fuel, the digit loop reads the rendering of `u` back as `u`. -/
theorem parseLoop_formatBits (fuel u : Nat) (hfuel : u < fuel) (hu : u < 2 ^ 64) :
    parseLoop (formatBits fuel u []) 0 = .ok u := by
  induction fuel generalizing u with
  | zero => omega
  | succ k ih =>
    simp only [formatBits]
    by_cases h : u < 10
    · have h64 : ¬ (2 ^ 64 ≤ 0 * 10 + u) := by omega
      rw [if_pos h]
      simp only [parseLoop, digitVal_digitChar u h]
      rw [if_neg h64, Nat.zero_mul, Nat.zero_add]
    · simp only [h, if_false]
      rw [formatBits_acc, parseLoop_append, ih (u / 10) (by omega) (by omega)]
      have hd : u % 10 < 10 := Nat.mod_lt _ (by omega)
      have hval : u / 10 * 10 + u % 10 = u := by omega
      have h64 : ¬ (2 ^ 64 ≤ u / 10 * 10 + u % 10) := by omega
      simp only [parseLoop, digitVal_digitChar _ hd]
      rw [if_neg h64, hval]

theorem ParseUint_formatBits (u : Nat) (hu : u < 2 ^ 64) :
    ParseUint (formatBits (u + 1) u []) = .ok u := by
  obtain ⟨d, rest, _, hform⟩ := formatBits_head (u + 1) u [] (by omega)
  have h := parseLoop_formatBits (u + 1) u (by omega) hu
  rw [hform] at h ⊢
  exact h

/-- `strconv.Atoi` reads the rendering of every `int` back as that `int`. -/
theorem Atoi_Itoa (i : Int) (hlo : -(2 ^ (intSize - 1) : Int) ≤ i)
    (hhi : i < (2 ^ (intSize - 1) : Int)) : Atoi (Itoa i) = .ok i := by
  have h63 : (2 ^ (intSize - 1) : Nat) = 9223372036854775808 := by decide
  have h63i : (2 ^ (intSize - 1) : Int) = 9223372036854775808 := by
    simp [intSize]
  rw [h63i] at hlo hhi
  have habs : i.natAbs ≤ 9223372036854775808 := by omega
  have hpu := ParseUint_formatBits i.natAbs (by omega)
  obtain ⟨d, rest, hd, hform⟩ := formatBits_head (i.natAbs + 1) i.natAbs [] (by omega)
  by_cases hneg : i < 0
  · have hval : -|i| = i := by rw [abs_of_neg hneg]; omega
    have hle : ¬ ((9223372036854775808 : Nat) < i.natAbs) := by omega
    simp [Atoi, Itoa, hneg, hpu, h63, hle, hval]
  · have hval : |i| = i := abs_of_nonneg (by omega)
    have hlt : ¬ ((9223372036854775808 : Nat) ≤ i.natAbs) := by omega
    have hsign := digitChar_ne_sign d hd
    rw [hform] at hpu
    simp [Atoi, Itoa, hneg, hform, hsign.1, hsign.2, hpu, h63, hlt, hval]

end strconv

/-! ## Create, then get -/

namespace service

open repo dto

theorem MemRepo_CreateTask (st : List (String × String)) (task : Task) :
    MemRepo.CreateTask st task
      = (((st.length : Int) + 1, none), st ++ [(task.Title, task.Description)]) :=
  rfl

/-- The in-memory repository finds a task it has just stored, under the
identifier it returned for it. -/
theorem MemRepo_get_created (st : List (String × String)) (title description : String) :
    MemRepo.GetTaskByID (st ++ [(title, description)]) ((st.length : Int) + 1)
      = ((some { ID := (st.length : Int) + 1, Title := title, Description := description },
          none), st ++ [(title, description)]) := by
  have h1 : (1 : Int) ≤ (st.length : Int) + 1 := by omega
  have h2 : ((st.length : Int) + 1 - 1).toNat = st.length := by omega
  simp only [MemRepo, if_pos h1, h2]
  simp

/-- The identifier the in-memory repository will assign next is not in use. -/
theorem MemRepo_get_fresh (st : List (String × String)) :
    MemRepo.GetTaskByID st ((st.length : Int) + 1) = ((none, none), st) := by
  have h1 : (1 : Int) ≤ (st.length : Int) + 1 := by omega
  have h2 : ((st.length : Int) + 1 - 1).toNat = st.length := by omega
  simp only [MemRepo, if_pos h1, h2]
  simp

/-- C8. Create-then-get round trip over the in-memory repository: for every
request that decodes and passes validation, `CreateTask` answers 200 with
`task_id = i`, the identifier after the last one in use, and a following
`GetTaskByID` whose path parameter is the decimal rendering of `i` answers 200
with the task of identifier `i` carrying the submitted title and description.
Before the creation the same lookup answers "Task not found". -/
theorem create_then_get_round_trip (env : Env) (st : List (String × String))
    (body title description : String)
    (hdec : env.Unmarshal body = .ok { Title := title, Description := description })
    (hval : env.Validate { Title := title, Description := description } = none)
    (hsize : (st.length : Int) + 1 < 2 ^ (strconv.intSize - 1)) :
    (CreateTask env MemRepo st body).response
        = { code := 200,
            body := { Status := "success",
                      Data := Data.intMap [("task_id", (st.length : Int) + 1)],
                      Error := none } }
      ∧ (GetTaskByID env MemRepo (CreateTask env MemRepo st body).state
          (strconv.Itoa ((st.length : Int) + 1))).response
        = { code := 200,
            body := { Status := "success",
                      Data := Data.task { ID := (st.length : Int) + 1, Title := title,
                                          Description := description },
                      Error := none } }
      ∧ (GetTaskByID env MemRepo st (strconv.Itoa ((st.length : Int) + 1))).response
        = BadResponseError Field.Incorrect "Task not found" := by
  have hid : strconv.Atoi (strconv.Itoa ((st.length : Int) + 1)) = .ok ((st.length : Int) + 1) :=
    strconv.Atoi_Itoa _ (by
      have : (0 : Int) < 2 ^ (strconv.intSize - 1) := by positivity
      omega) hsize
  have hcreate := CreateTask_repo_ok env MemRepo st (st ++ [(title, description)]) body
    { Title := title, Description := description } ((st.length : Int) + 1) hdec hval
    (MemRepo_CreateTask st _)
  rw [hcreate]
  refine ⟨rfl, ?_, ?_⟩
  · rw [GetTaskByID_repo_ok env MemRepo (st ++ [(title, description)])
      (st ++ [(title, description)]) _ _ _ hid (MemRepo_get_created st title description)]
  · rw [GetTaskByID_repo_nil env MemRepo st st _ _ hid (MemRepo_get_fresh st)]

/-- Witness of C8, the scenario of §8: against the empty in-memory repository
the body with the title "Buy milk" and the description "2%" gets `task_id` 1, the
rendering of 1 is "1", and the lookup of "1" then returns the task with
identifier 1, title "Buy milk" and description "2%". -/
theorem create_then_get_round_trip_witness :
    sampleEnv.Unmarshal buyMilkBody = .ok { Title := "Buy milk", Description := "2%" }
      ∧ sampleEnv.Validate { Title := "Buy milk", Description := "2%" } = none
      ∧ strconv.Itoa 1 = "1"
      ∧ (CreateTask sampleEnv MemRepo [] buyMilkBody).state = [("Buy milk", "2%")]
      ∧ (CreateTask sampleEnv MemRepo [] buyMilkBody).response
        = { code := 200,
            body := { Status := "success", Data := Data.intMap [("task_id", 1)],
                      Error := none } }
      ∧ (GetTaskByID sampleEnv MemRepo [("Buy milk", "2%")] "1").response
        = { code := 200,
            body := { Status := "success",
                      Data := Data.task { ID := 1, Title := "Buy milk", Description := "2%" },
                      Error := none } } :=
  have h := create_then_get_round_trip sampleEnv [] buyMilkBody "Buy milk" "2%" rfl
    (by decide) (by decide)
  ⟨rfl, by decide, by decide, rfl, h.1, h.2.1⟩

end service

end SimpleService
